import Mathlib

/-!
Verification of the Firmament coordinator core.

Shallow embedding of `src/engine/coordinator.cc` (the `firmament` namespace):
the resource registry `associated_resources_`, the message handlers
`HandleHeartbeat`, `HandleRegistrationRequest`, `HandleIncomingMessage`,
`HandleRecv`, the job-submission stub `SubmitJob`, and the `Run` /
`Shutdown` main-loop lifecycle.

Resource identities are 128-bit UUIDs and descriptors are opaque protobuf
blobs in the source; both are modelled as `Nat` (the registry only compares
identities for equality and copies descriptors around). Timestamps
(`GetCurrentTimestamp`) are `Nat` and are passed in explicitly as `now`.
The registry, a `map<uuid, pair<ResourceDescriptor, uint64_t>>`, is
modelled as an association list with unique keys.
-/

namespace Firmament

abbrev ResourceID := Nat
abbrev ResourceDescriptor := Nat

/-- The registry `associated_resources_`: identity ↦ (descriptor, last-seen
timestamp). The C++ `map` has unique keys; `keysUnique` below captures that
invariant for the list model. -/
abbrev Registry := List (ResourceID × ResourceDescriptor × Nat)

/-- `FindOrNull(associated_resources_, uuid)` from `misc/map-util.h`:
lookup returning the stored (descriptor, timestamp) pair, or `none`. -/
def FindOrNull (reg : Registry) (id : ResourceID) : Option (ResourceDescriptor × Nat) :=
  match reg with
  | [] => none
  | (k, v) :: rest => if k = id then some v else FindOrNull rest id

/-- `rdp->second = GetCurrentTimestamp()`: in-place timestamp update of the
record the `FindOrNull` pointer refers to (the first, and with unique keys
the only, entry for `id`); the descriptor component is untouched. -/
def updateTimestamp (reg : Registry) (id : ResourceID) (now : Nat) : Registry :=
  match reg with
  | [] => []
  | (k, d, t) :: rest =>
      if k = id then (k, d, now) :: rest
      else (k, d, t) :: updateTimestamp rest id now

/-- Outcome signalled by `Coordinator::HandleHeartbeat` through its log
statements: a heartbeat from an unknown resource (warning) or a timestamp
refresh of a known one. -/
inductive HeartbeatOutcome where
  | unknownResource
  | updated
  deriving DecidableEq, Repr

/-- Outcome signalled by `Coordinator::HandleRegistrationRequest`: a brand
new resource was inserted, or the resource was already known (the
"possible recovery" branch, which only refreshes the timestamp). -/
inductive RegistrationOutcome where
  | newResource
  | alreadyKnown
  deriving DecidableEq, Repr

/-- `RegistrationMessage`: carries the resource identity (string-form uuid
in the wire format) and the resource descriptor. -/
structure RegistrationMessage where
  uuid : ResourceID
  res_desc : ResourceDescriptor
  deriving DecidableEq, Repr

/-- `HeartbeatMessage`: carries only the resource identity. -/
structure HeartbeatMessage where
  uuid : ResourceID
  deriving DecidableEq, Repr

/-- `BaseMessage` with its two optional protobuf extensions: an envelope
that may independently carry a registration and/or a heartbeat payload
(`HasExtension(register_extn)` / `HasExtension(heartbeat_extn)`). -/
structure BaseMessage where
  register_extn : Option RegistrationMessage
  heartbeat_extn : Option HeartbeatMessage
  deriving DecidableEq, Repr

/-- `Coordinator::HandleHeartbeat`: if the identity is unknown, log a
warning and leave the registry untouched; otherwise update the record's
timestamp to `now` (`GetCurrentTimestamp()`). -/
def HandleHeartbeat (reg : Registry) (msg : HeartbeatMessage) (now : Nat) :
    Registry × HeartbeatOutcome :=
  match FindOrNull reg msg.uuid with
  | none => (reg, HeartbeatOutcome.unknownResource)
  | some _ => (updateTimestamp reg msg.uuid now, HeartbeatOutcome.updated)

/-- `Coordinator::HandleRegistrationRequest`: if the identity is absent,
insert a copy of the descriptor with timestamp `now`
(`InsertIfNotPresent`); if already present, refresh only the timestamp
(registration is an implicit heartbeat; descriptor untouched). -/
def HandleRegistrationRequest (reg : Registry) (msg : RegistrationMessage) (now : Nat) :
    Registry × RegistrationOutcome :=
  match FindOrNull reg msg.uuid with
  | none => ((msg.uuid, msg.res_desc, now) :: reg, RegistrationOutcome.newResource)
  | some _ => (updateTimestamp reg msg.uuid now, RegistrationOutcome.alreadyKnown)

/-- One handler invocation made by the dispatcher, recorded in order. -/
inductive HandlerCall where
  | registration (msg : RegistrationMessage)
  | heartbeat (msg : HeartbeatMessage)
  deriving DecidableEq, Repr

/-- `Coordinator::HandleIncomingMessage`: probe the envelope for each
recognized extension independently; a present registration payload is
handled first, then a present heartbeat payload (against the registry as
just updated). Also returns the ordered list of handler invocations. -/
def HandleIncomingMessage (reg : Registry) (bm : BaseMessage) (now : Nat) :
    Registry × List HandlerCall :=
  let step1 : Registry × List HandlerCall :=
    match bm.register_extn with
    | some msg => ((HandleRegistrationRequest reg msg now).1, [HandlerCall.registration msg])
    | none => (reg, [])
  match bm.heartbeat_extn with
  | some msg => ((HandleHeartbeat step1.1 msg now).1, step1.2 ++ [HandlerCall.heartbeat msg])
  | none => step1

/-- `Coordinator::HandleRecv`: an asynchronous receive completion. On a
transport error it logs a warning and returns without touching anything;
otherwise it dispatches the decoded envelope via `HandleIncomingMessage`. -/
def HandleRecv (reg : Registry) (error : Bool) (env : BaseMessage) (now : Nat) :
    Registry × List HandlerCall :=
  if error then (reg, []) else HandleIncomingMessage reg env now

/-- `Coordinator::SubmitJob`: logs the job descriptor and returns the fixed
opaque identifier string. -/
def SubmitJob (_job_descriptor : Nat) : String :=
  "test1234"

/-- The map invariant of `associated_resources_`: at most one record per
identity. -/
def keysUnique (reg : Registry) : Prop :=
  (reg.map Prod.fst).Nodup

/-- An identity has a record in the registry. -/
def registered (reg : Registry) (id : ResourceID) : Prop :=
  (FindOrNull reg id).isSome

/-- A single registry mutation of the core: the effect of one
`HandleRegistrationRequest` or one `HandleHeartbeat` call. -/
inductive Op where
  | register (msg : RegistrationMessage) (now : Nat)
  | heartbeat (msg : HeartbeatMessage) (now : Nat)
  deriving DecidableEq, Repr

/-- Apply one mutation to the registry. -/
def applyOp (reg : Registry) : Op → Registry
  | Op.register msg now => (HandleRegistrationRequest reg msg now).1
  | Op.heartbeat msg now => (HandleHeartbeat reg msg now).1

/-- Apply a sequence of mutations left to right. -/
def applyOps (reg : Registry) (ops : List Op) : Registry :=
  ops.foldl applyOp reg

/-- The lifecycle state relevant to `Coordinator::Run` and
`Coordinator::Shutdown`: the cooperative `exit_` flag, the number of
`StopListen` invocations observed on the transport adapter, and the
recorded shutdown reason string. -/
structure LoopState where
  exit_ : Bool
  stopListenCalls : Nat
  shutdownReason : Option String
  deriving DecidableEq, Repr

/-- `Coordinator::Shutdown(reason)`: logs the reason, invokes
`m_adapter_->StopListen()` once, and sets the exit flag. -/
def Shutdown (s : LoopState) (reason : String) : LoopState :=
  { s with exit_ := true, stopListenCalls := s.stopListenCalls + 1,
           shutdownReason := some reason }

/-- The main loop of `Coordinator::Run`, instrumented with the number of
completed wait cycles. The `exit_` flag is read only here, at loop-top; if
it is clear the loop blocks in `AwaitNextMessage()` — one wait cycle,
numbered `cyc` — during which an asynchronous agent (`HandleSignal`, or an
external shutdown request setting the flag) may set the flag:
`setDuring cyc` says whether it does. An in-flight wait is never
preempted: a flag set during cycle `cyc` is observed only at the next
loop-top. When the loop-top check sees the flag set, `Run` drops out of
the loop and calls `Shutdown("dropped out of main loop")`. `fuel` bounds
the number of iterations modelled; `none` means the flag was still clear
when the fuel ran out. -/
def RunLoop (setDuring : Nat → Bool) : Nat → LoopState → Nat → Option (LoopState × Nat)
  | 0, _, _ => none
  | fuel + 1, s, cyc =>
      if s.exit_ then some (Shutdown s "dropped out of main loop", cyc)
      else RunLoop setDuring fuel
        { s with exit_ := s.exit_ || setDuring cyc } (cyc + 1)

theorem findOrNull_updateTimestamp_self (reg : Registry) (id : ResourceID) (now : Nat) :
    FindOrNull (updateTimestamp reg id now) id =
      (FindOrNull reg id).map (fun p => (p.1, now)) := by
  induction reg with
  | nil => rfl
  | cons hd rest ih =>
      obtain ⟨k, d, t⟩ := hd
      by_cases hk : k = id
      · simp [updateTimestamp, FindOrNull, hk]
      · simp [updateTimestamp, FindOrNull, hk, ih]

theorem findOrNull_updateTimestamp_other (reg : Registry) (id id2 : ResourceID)
    (now : Nat) (hne : id2 ≠ id) :
    FindOrNull (updateTimestamp reg id now) id2 = FindOrNull reg id2 := by
  induction reg with
  | nil => rfl
  | cons hd rest ih =>
      obtain ⟨k, d, t⟩ := hd
      by_cases hk : k = id
      · have hk2 : ¬(k = id2) := fun h2 => hne (h2 ▸ hk)
        simp only [updateTimestamp, if_pos hk, FindOrNull, if_neg hk2]
      · by_cases hk2 : k = id2
        · simp only [updateTimestamp, if_neg hk, FindOrNull, if_pos hk2]
        · simp only [updateTimestamp, if_neg hk, FindOrNull, if_neg hk2, ih]

theorem updateTimestamp_keys (reg : Registry) (id : ResourceID) (now : Nat) :
    (updateTimestamp reg id now).map Prod.fst = reg.map Prod.fst := by
  induction reg with
  | nil => rfl
  | cons hd rest ih =>
      obtain ⟨k, d, t⟩ := hd
      by_cases hk : k = id
      · simp [updateTimestamp, hk]
      · simp [updateTimestamp, hk, ih]

theorem findOrNull_none_of_not_mem_keys (reg : Registry) (id : ResourceID)
    (h : id ∉ reg.map Prod.fst) : FindOrNull reg id = none := by
  induction reg with
  | nil => rfl
  | cons hd rest ih =>
      obtain ⟨k, v⟩ := hd
      simp only [List.map_cons, List.mem_cons] at h
      push_neg at h
      have hk : ¬(k = id) := fun h2 => h.1 (Eq.symm h2)
      simp [FindOrNull, hk, ih h.2]

theorem findOrNull_isSome_of_mem_keys (reg : Registry) (id : ResourceID)
    (h : id ∈ reg.map Prod.fst) : (FindOrNull reg id).isSome := by
  induction reg with
  | nil => simp at h
  | cons hd rest ih =>
      obtain ⟨k, v⟩ := hd
      simp only [List.map_cons, List.mem_cons] at h
      by_cases hk : k = id
      · simp [FindOrNull, hk]
      · rcases h with h | h
        · exact absurd h.symm hk
        · simp [FindOrNull, hk, ih h]

end Firmament

namespace Firmament

/-- C3 -- A heartbeat for an identity that was never registered leaves the
registry exactly as it was and classifies the event as an unknown-resource
warning; the handler returns normally (non-fatal). -/
theorem heartbeat_unknown_no_mutation (reg : Registry) (id : ResourceID) (now : Nat)
    (h : FindOrNull reg id = none) :
    HandleHeartbeat reg ⟨id⟩ now = (reg, HeartbeatOutcome.unknownResource) := by
  simp [HandleHeartbeat, h]

/-- Witness for C3 at a concrete registry and identity. -/
theorem heartbeat_unknown_no_mutation_witness :
    HandleHeartbeat [(1, 7, 100)] ⟨2⟩ 150 =
      ([(1, 7, 100)], HeartbeatOutcome.unknownResource) :=
  heartbeat_unknown_no_mutation [(1, 7, 100)] 2 150 (by decide)

/-- C6 -- Dispatching an envelope that carries neither a registration nor a
heartbeat payload leaves the registry unchanged and invokes no handler;
the dispatcher returns normally with no error. -/
theorem dispatch_empty_envelope_noop (reg : Registry) (now : Nat) :
    HandleIncomingMessage reg ⟨none, none⟩ now = (reg, []) :=
  rfl

/-- C9 -- When the asynchronous receive completion reports a transport
error, `HandleRecv` drops the message: the registry is unchanged and no
payload handler is invoked; the function returns so the loop continues. -/
theorem recv_error_drops_message (reg : Registry) (env : BaseMessage) (now : Nat) :
    HandleRecv reg true env now = (reg, []) :=
  rfl

/-- C10 -- `SubmitJob` is a constant function: every pair of job
descriptors yields the same identifier, the literal string "test1234";
returned job ids are not unique across submissions. -/
theorem submitJob_constant (d1 d2 : Nat) :
    SubmitJob d1 = SubmitJob d2 ∧ SubmitJob d1 = "test1234" :=
  ⟨rfl, rfl⟩

/-- C2 -- An envelope carrying both a registration and a heartbeat payload
invokes the registration handler first and the heartbeat handler second,
each exactly once, and the heartbeat acts on the registry as updated by
the registration. -/
theorem dispatch_registration_before_heartbeat
    (reg : Registry) (r : RegistrationMessage) (h : HeartbeatMessage) (now : Nat) :
    HandleIncomingMessage reg ⟨some r, some h⟩ now =
      ((HandleHeartbeat (HandleRegistrationRequest reg r now).1 h now).1,
       [HandlerCall.registration r, HandlerCall.heartbeat h]) :=
  rfl

/-- C4 -- Registering an identity absent from the registry inserts the new
record (descriptor, now) keyed by that identity, classifies the outcome as
a new resource, and leaves every other identity's record unchanged. -/
theorem register_new_resource (reg : Registry) (id : ResourceID)
    (d : ResourceDescriptor) (now : Nat) (h : FindOrNull reg id = none) :
    HandleRegistrationRequest reg ⟨id, d⟩ now =
        ((id, d, now) :: reg, RegistrationOutcome.newResource) ∧
      FindOrNull ((id, d, now) :: reg) id = some (d, now) ∧
      ∀ id2, id2 ≠ id →
        FindOrNull ((id, d, now) :: reg) id2 = FindOrNull reg id2 := by
  refine ⟨by simp [HandleRegistrationRequest, h], by simp [FindOrNull], ?_⟩
  intro id2 hne
  simp only [FindOrNull]
  rw [if_neg (fun h2 => hne h2.symm)]

/-- Witness for C4: registering identity 5 into a registry not containing it. -/
theorem register_new_resource_witness :
    HandleRegistrationRequest [(1, 7, 100)] ⟨5, 9⟩ 200 =
        ((5, 9, 200) :: [(1, 7, 100)], RegistrationOutcome.newResource) ∧
      FindOrNull ((5, 9, 200) :: [(1, 7, 100)]) 5 = some (9, 200) ∧
      ∀ id2, id2 ≠ 5 →
        FindOrNull ((5, 9, 200) :: [(1, 7, 100)]) id2 = FindOrNull [(1, 7, 100)] id2 :=
  register_new_resource [(1, 7, 100)] 5 9 200 (by decide)

/-- C1 -- After `Register(id, d1, t1)` on a registry not yet containing
`id`, a second `Register(id, d2, t2)` refreshes only the timestamp: the
stored record becomes `(d1, t2)` (the descriptor is never replaced by
re-registration) and the outcome is the already-known branch. -/
theorem reregistration_keeps_descriptor (reg : Registry) (id : ResourceID)
    (d1 d2 : ResourceDescriptor) (t1 t2 : Nat) (h : FindOrNull reg id = none) :
    FindOrNull
        (HandleRegistrationRequest
          (HandleRegistrationRequest reg ⟨id, d1⟩ t1).1 ⟨id, d2⟩ t2).1 id =
        some (d1, t2) ∧
      (HandleRegistrationRequest
          (HandleRegistrationRequest reg ⟨id, d1⟩ t1).1 ⟨id, d2⟩ t2).2 =
        RegistrationOutcome.alreadyKnown := by
  have h1 : (HandleRegistrationRequest reg ⟨id, d1⟩ t1).1 = (id, d1, t1) :: reg := by
    simp [HandleRegistrationRequest, h]
  have h2 : FindOrNull ((id, d1, t1) :: reg) id = some (d1, t1) := by
    simp [FindOrNull]
  rw [h1]
  constructor
  · simp [HandleRegistrationRequest, h2, findOrNull_updateTimestamp_self]
  · simp [HandleRegistrationRequest, h2]

/-- Witness for C1: identity 5 registered with descriptor 9 at time 100,
re-registered with descriptor 11 at time 200. -/
theorem reregistration_keeps_descriptor_witness :
    FindOrNull
        (HandleRegistrationRequest
          (HandleRegistrationRequest [] ⟨5, 9⟩ 100).1 ⟨5, 11⟩ 200).1 5 =
        some (9, 200) ∧
      (HandleRegistrationRequest
          (HandleRegistrationRequest [] ⟨5, 9⟩ 100).1 ⟨5, 11⟩ 200).2 =
        RegistrationOutcome.alreadyKnown :=
  reregistration_keeps_descriptor [] 5 9 11 100 200 (by decide)

/-- C5 -- `Register(id, d, t)` on a registry not yet containing `id`,
followed by `Heartbeat(id, t2)`, leaves the record for `id` equal to
`(d, t2)`. -/
theorem register_then_heartbeat (reg : Registry) (id : ResourceID)
    (d : ResourceDescriptor) (t t2 : Nat) (h : FindOrNull reg id = none) :
    FindOrNull
        (HandleHeartbeat (HandleRegistrationRequest reg ⟨id, d⟩ t).1 ⟨id⟩ t2).1 id =
      some (d, t2) := by
  have h1 : (HandleRegistrationRequest reg ⟨id, d⟩ t).1 = (id, d, t) :: reg := by
    simp [HandleRegistrationRequest, h]
  have h2 : FindOrNull ((id, d, t) :: reg) id = some (d, t) := by
    simp [FindOrNull]
  rw [h1]
  simp [HandleHeartbeat, h2, findOrNull_updateTimestamp_self]

/-- Witness for C5: identity 5 registered with descriptor 9 at time 100,
heartbeat at time 150. -/
theorem register_then_heartbeat_witness :
    FindOrNull
        (HandleHeartbeat (HandleRegistrationRequest [] ⟨5, 9⟩ 100).1 ⟨5⟩ 150).1 5 =
      some (9, 150) :=
  register_then_heartbeat [] 5 9 100 150 (by decide)

/-- `applyOp` preserves key uniqueness: a registration inserts only when
the key is absent, and timestamp updates never change the key list. -/
theorem applyOp_keysUnique (reg : Registry) (op : Op) (h : keysUnique reg) :
    keysUnique (applyOp reg op) := by
  cases op with
  | register msg now =>
      cases hfind : FindOrNull reg msg.uuid with
      | none =>
          have hmem : msg.uuid ∉ reg.map Prod.fst := by
            intro hmem
            have hs := findOrNull_isSome_of_mem_keys reg msg.uuid hmem
            rw [hfind] at hs
            simp at hs
          unfold keysUnique at h ⊢
          simp only [applyOp, HandleRegistrationRequest, hfind, List.map_cons,
            List.nodup_cons]
          exact ⟨hmem, h⟩
      | some p =>
          unfold keysUnique at h ⊢
          simp only [applyOp, HandleRegistrationRequest, hfind]
          rw [updateTimestamp_keys]
          exact h
  | heartbeat msg now =>
      cases hfind : FindOrNull reg msg.uuid with
      | none =>
          simpa only [applyOp, HandleHeartbeat, hfind] using h
      | some p =>
          unfold keysUnique at h ⊢
          simp only [applyOp, HandleHeartbeat, hfind]
          rw [updateTimestamp_keys]
          exact h

/-- `applyOp` never deletes a record: any registered identity stays
registered after one registration or heartbeat. -/
theorem applyOp_registered (reg : Registry) (op : Op) (id : ResourceID)
    (h : registered reg id) : registered (applyOp reg op) id := by
  cases op with
  | register msg now =>
      cases hfind : FindOrNull reg msg.uuid with
      | none =>
          unfold registered at h ⊢
          simp only [applyOp, HandleRegistrationRequest, hfind]
          by_cases hid : msg.uuid = id
          · simp [FindOrNull, hid]
          · simpa [FindOrNull, hid] using h
      | some p =>
          unfold registered at h ⊢
          simp only [applyOp, HandleRegistrationRequest, hfind]
          by_cases hid : id = msg.uuid
          · subst hid
            rw [findOrNull_updateTimestamp_self, hfind]
            simp
          · rw [findOrNull_updateTimestamp_other reg msg.uuid id now hid]
            exact h
  | heartbeat msg now =>
      cases hfind : FindOrNull reg msg.uuid with
      | none =>
          simpa only [applyOp, HandleHeartbeat, hfind] using h
      | some p =>
          unfold registered at h ⊢
          simp only [applyOp, HandleHeartbeat, hfind]
          by_cases hid : id = msg.uuid
          · subst hid
            rw [findOrNull_updateTimestamp_self, hfind]
            simp
          · rw [findOrNull_updateTimestamp_other reg msg.uuid id now hid]
            exact h

/-- C7 -- Every sequence of Register and Heartbeat operations preserves
the invariant of at most one record per identity, and no operation ever
deletes a record: every identity registered before the sequence is still
registered after it. -/
theorem registry_invariant_preserved (reg : Registry) (ops : List Op)
    (h : keysUnique reg) :
    keysUnique (applyOps reg ops) ∧
      ∀ id, registered reg id → registered (applyOps reg ops) id := by
  induction ops generalizing reg with
  | nil => exact ⟨h, fun id hr => hr⟩
  | cons op rest ih =>
      have hstep : applyOps reg (op :: rest) = applyOps (applyOp reg op) rest := rfl
      rw [hstep]
      obtain ⟨hA, hB⟩ := ih (applyOp reg op) (applyOp_keysUnique reg op h)
      exact ⟨hA, fun id hr => hB id (applyOp_registered reg op id hr)⟩

/-- Witness for C7: a registry with one record, hit by a re-registration,
a fresh registration and two heartbeats (one for an unknown identity). -/
theorem registry_invariant_preserved_witness :
    keysUnique (applyOps [(1, 7, 100)]
        [Op.register ⟨1, 9⟩ 200, Op.register ⟨5, 3⟩ 250,
         Op.heartbeat ⟨1⟩ 300, Op.heartbeat ⟨2⟩ 350]) ∧
      ∀ id, registered [(1, 7, 100)] id →
        registered (applyOps [(1, 7, 100)]
          [Op.register ⟨1, 9⟩ 200, Op.register ⟨5, 3⟩ 250,
           Op.heartbeat ⟨1⟩ 300, Op.heartbeat ⟨2⟩ 350]) id :=
  registry_invariant_preserved [(1, 7, 100)]
    [Op.register ⟨1, 9⟩ 200, Op.register ⟨5, 3⟩ 250,
     Op.heartbeat ⟨1⟩ 300, Op.heartbeat ⟨2⟩ 350] (by unfold keysUnique; decide)

theorem runLoop_exit_now (setDuring : Nat → Bool) (fuel cyc : Nat) (s : LoopState)
    (h : s.exit_ = true) (hf : 1 ≤ fuel) :
    RunLoop setDuring fuel s cyc =
      some (Shutdown s "dropped out of main loop", cyc) := by
  cases fuel with
  | zero => omega
  | succ n => simp [RunLoop, h]

theorem runLoop_flag_set_exits (setDuring : Nat → Bool) (k : Nat)
    (hset : setDuring k = true) :
    ∀ fuel cyc s, s.exit_ = false → cyc ≤ k → k + 2 - cyc ≤ fuel →
      ∃ sf cycles, RunLoop setDuring fuel s cyc = some (sf, cycles) ∧
        cycles ≤ k + 1 ∧ sf.exit_ = true ∧
        sf.stopListenCalls = s.stopListenCalls + 1 := by
  intro fuel
  induction fuel with
  | zero =>
      intro cyc s _ h2 h3
      omega
  | succ n ih =>
      intro cyc s h1 h2 h3
      rw [RunLoop, h1]
      simp only [Bool.false_eq_true, if_false, Bool.false_or]
      by_cases hc : setDuring cyc = true
      · rw [hc]
        rw [runLoop_exit_now setDuring n (cyc + 1) _ rfl (by omega)]
        refine ⟨_, cyc + 1, rfl, by omega, rfl, rfl⟩
      · rw [Bool.not_eq_true] at hc
        rw [hc]
        have hck : cyc ≠ k := fun he => by rw [he, hset] at hc; exact Bool.true_eq_false.mp hc
        obtain ⟨sf, cycles, heq, hle, hex, hsl⟩ :=
          ih (cyc + 1) { s with exit_ := false } rfl (by omega) (by omega)
        exact ⟨sf, cycles, heq, hle, hex, hsl⟩

/-- C8 -- Shutdown (setting the cooperative exit flag during some wait
cycle `k`) causes the main loop to exit within one wait cycle: the flag is
read only at loop-top, the in-flight wait completes, and the loop ends
after at most `k + 1` wait cycles, whereupon `Run` calls `Shutdown` and
`StopListen` is invoked exactly once. -/
theorem shutdown_exits_loop_once (setDuring : Nat → Bool) (k fuel : Nat)
    (s : LoopState) (hexit : s.exit_ = false) (hstop : s.stopListenCalls = 0)
    (hset : setDuring k = true) (hfuel : k + 2 ≤ fuel) :
    ∃ sf cycles, RunLoop setDuring fuel s 0 = some (sf, cycles) ∧
      cycles ≤ k + 1 ∧ sf.exit_ = true ∧ sf.stopListenCalls = 1 := by
  obtain ⟨sf, cycles, heq, hle, hex, hsl⟩ :=
    runLoop_flag_set_exits setDuring k hset fuel 0 s hexit (Nat.zero_le k) (by omega)
  exact ⟨sf, cycles, heq, hle, hex, by omega⟩

/-- Witness for C8: the flag is set during the first wait cycle; the loop
exits at the next loop-top and StopListen is called exactly once. -/
theorem shutdown_exits_loop_once_witness :
    ∃ sf cycles,
      RunLoop (fun n => n == 0) 2 ⟨false, 0, none⟩ 0 = some (sf, cycles) ∧
        cycles ≤ 0 + 1 ∧ sf.exit_ = true ∧ sf.stopListenCalls = 1 :=
  shutdown_exits_loop_once (fun n => n == 0) 0 2 ⟨false, 0, none⟩ rfl rfl rfl
    (by omega)

end Firmament
